import Mathlib

/-!
Verification of the resume-reviewer application.

The repository ships a React frontend (FileUpload / Results / ResumeHistory
components) that talks to a FastAPI scoring backend over `/analyze`.  The
backend's matching and scoring engine is not part of the checked-in sources,
so the engine is modelled here from the specification (sections 2-4 of
spec.md); the frontend handlers (file validation, submit flow, response
validation, history management) are embedded directly from the TypeScript
sources.
-/

namespace ResumeReviewer

/-- JavaScript `String.prototype.trim()` over the character list of a Lean
string: drop leading and trailing whitespace. -/
def jsTrim (s : String) : String :=
  String.mk ((s.data.dropWhile Char.isWhitespace).reverse.dropWhile Char.isWhitespace).reverse

/-- JavaScript `String.prototype.includes(needle)`: the needle occurs as a
contiguous substring of the haystack. -/
def strIncludes (hay needle : String) : Prop :=
  needle.data <:+: hay.data

instance (hay needle : String) : Decidable (strIncludes hay needle) :=
  inferInstanceAs (Decidable (needle.data <:+: hay.data))

/-! ### Data model (spec section 3)

The candidate profile and job requirement are the scorer's two inputs.
Skill collections are canonical, deduplicated sets of strings; experience
years and education level may be unknown. -/

/-- Education levels from the spec's `educationLevel` enum. -/
inductive EducationLevel
  | NONE
  | HIGH_SCHOOL
  | ASSOCIATE
  | BACHELOR
  | MASTER
  | DOCTORATE
  | UNKNOWN
deriving DecidableEq

/-- Ordinal rank of an education level; `UNKNOWN` has no rank. -/
def eduRank : EducationLevel → Option ℕ
  | .NONE => some 0
  | .HIGH_SCHOOL => some 1
  | .ASSOCIATE => some 2
  | .BACHELOR => some 3
  | .MASTER => some 4
  | .DOCTORATE => some 5
  | .UNKNOWN => none

/-- Structured signal extracted from the resume (spec section 3). -/
structure CandidateProfile where
  skills : Finset String
  experienceYears : Option ℕ
  educationLevel : EducationLevel
  softSkillSignals : Finset String

/-- Structured signal extracted from the job description (spec section 3). -/
structure JobRequirement where
  requiredSkills : Finset String
  preferredSkills : Finset String
  minExperienceYears : Option ℕ
  minEducationLevel : EducationLevel
  softSkillSignals : Finset String

/-! ### Matcher / Scorer (spec section 4.4)

The scoring backend is not under the checked-in sources, so the scorer is
modelled from the specification's formulas. -/

/-- Round-to-nearest (half up) of the fraction `a / b` over naturals:
`(2 * a + b) / (2 * b)` equals `⌊a / b + 1 / 2⌋`. -/
def rndDiv (a b : ℕ) : ℕ :=
  (2 * a + b) / (2 * b)

/-- Modelled from the spec: the technical-skills score of section 4.4,
`100 * |skills ∩ (required ∪ preferred)| / |required ∪ preferred|` rounded
to the nearest integer, and `100` when the requirement set is empty.
The scoring backend itself is missing from the sources. -/
def techScore (pr : CandidateProfile) (req : JobRequirement) : ℕ :=
  let u := req.requiredSkills ∪ req.preferredSkills
  if u = ∅ then 100 else rndDiv (100 * (pr.skills ∩ u).card) u.card

/-- Modelled from the spec: the experience score of section 4.4, neutral `50`
when either side's years are unknown, otherwise
`clamp(100 * years / max(minYears, 1), 0, 100)` rounded. -/
def expScore (pr : CandidateProfile) (req : JobRequirement) : ℕ :=
  match pr.experienceYears, req.minExperienceYears with
  | some py, some ry => min (rndDiv (100 * py) (max ry 1)) 100
  | _, _ => 50

/-- Modelled from the spec: the education score of section 4.4, `50` when
either level is unknown, `100` when the candidate meets the requirement,
otherwise a penalty of 20 points per ordinal step below, floored at 0. -/
def eduScore (pr : CandidateProfile) (req : JobRequirement) : ℕ :=
  match eduRank pr.educationLevel, eduRank req.minEducationLevel with
  | some c, some r => if r ≤ c then 100 else 100 - 20 * (r - c)
  | _, _ => 50

/-- Modelled from the spec: the soft-skills score of section 4.4,
`100 * |profile ∩ requirement| / max(|requirement|, 1)` rounded, and `100`
when the requirement side is empty. -/
def softScore (pr : CandidateProfile) (req : JobRequirement) : ℕ :=
  if req.softSkillSignals = ∅ then 100
  else rndDiv (100 * (pr.softSkillSignals ∩ req.softSkillSignals).card)
    (max req.softSkillSignals.card 1)

/-- Modelled from the spec: the overall match of section 4.4, the weighted
average 0.4/0.25/0.15/0.20 of the four category scores rounded to the
nearest integer. -/
def overallScore (t e ed s : ℕ) : ℕ :=
  rndDiv (40 * t + 25 * e + 15 * ed + 20 * s) 100

/-- Output of the scorer: five category scores plus the matched and missing
keyword sequences. -/
structure ScoreBreakdown where
  overallMatch : ℕ
  technicalSkills : ℕ
  experience : ℕ
  education : ℕ
  softSkills : ℕ
  matchedKeywords : List String
  missingKeywords : List String

/-- Modelled from the spec: the pure scorer of section 4.4 (the backend
implementation is missing from the sources).  `matchedKeywords` is
`skills ∩ (required ∪ preferred)` and `missingKeywords` is
`required \ skills`, both emitted as sorted sequences. -/
def score (pr : CandidateProfile) (req : JobRequirement) : ScoreBreakdown :=
  let u := req.requiredSkills ∪ req.preferredSkills
  let t := techScore pr req
  let e := expScore pr req
  let ed := eduScore pr req
  let s := softScore pr req
  { overallMatch := overallScore t e ed s
    technicalSkills := t
    experience := e
    education := ed
    softSkills := s
    matchedKeywords := (pr.skills ∩ u).sort (· ≤ ·)
    missingKeywords := (req.requiredSkills \ pr.skills).sort (· ≤ ·) }

/-! ### Arithmetic facts about the rounding division -/

/-- Upper bound for the rounding division: if `a ≤ c * b` with `b` positive
then `rndDiv a b ≤ c`. -/
theorem rndDiv_le (a b c : ℕ) (hb : 0 < b) (h : a ≤ c * b) : rndDiv a b ≤ c := by
  unfold rndDiv
  have h2b : 0 < 2 * b := by omega
  have hlt : (2 * a + b) / (2 * b) < c + 1 := by
    refine (Nat.div_lt_iff_lt_mul h2b).mpr ?_
    nlinarith
  omega

/-- The rounding division agrees with round-half-up of the rational
fraction. -/
theorem rndDiv_eq_floor (a b : ℕ) (hb : 0 < b) :
    rndDiv a b = ⌊(a : ℚ) / (b : ℚ) + 1 / 2⌋₊ := by
  have hbq : (b : ℚ) ≠ 0 := Nat.cast_ne_zero.mpr hb.ne'
  have hcast : (a : ℚ) / (b : ℚ) + 1 / 2 = ((2 * a + b : ℕ) : ℚ) / ((2 * b : ℕ) : ℚ) := by
    push_cast
    field_simp
    ring
  rw [rndDiv, hcast, Nat.floor_div_nat, Nat.floor_natCast]

/-! ### Bounds on the five category scores -/

/-- The technical-skills score never exceeds 100. -/
theorem techScore_le (pr : CandidateProfile) (req : JobRequirement) :
    techScore pr req ≤ 100 := by
  unfold techScore
  set u := req.requiredSkills ∪ req.preferredSkills with hu
  by_cases hemp : u = ∅
  · simp [hemp]
  · have hpos : 0 < u.card := Finset.card_pos.mpr (Finset.nonempty_iff_ne_empty.mpr hemp)
    have hsub : (pr.skills ∩ u).card ≤ u.card :=
      Finset.card_le_card Finset.inter_subset_right
    simp only [hemp, if_false]
    exact rndDiv_le _ _ _ hpos (by nlinarith)

/-- The experience score never exceeds 100. -/
theorem expScore_le (pr : CandidateProfile) (req : JobRequirement) :
    expScore pr req ≤ 100 := by
  unfold expScore
  rcases pr.experienceYears with _ | py <;> rcases req.minExperienceYears with _ | ry <;>
    simp [Nat.min_le_right]

/-- The education score never exceeds 100. -/
theorem eduScore_le (pr : CandidateProfile) (req : JobRequirement) :
    eduScore pr req ≤ 100 := by
  unfold eduScore
  rcases eduRank pr.educationLevel with _ | c <;> rcases eduRank req.minEducationLevel with _ | r <;>
    simp
  split <;> omega

/-- The soft-skills score never exceeds 100. -/
theorem softScore_le (pr : CandidateProfile) (req : JobRequirement) :
    softScore pr req ≤ 100 := by
  unfold softScore
  by_cases hemp : req.softSkillSignals = ∅
  · simp [hemp]
  · have hpos : 0 < max req.softSkillSignals.card 1 := by omega
    have hsub : (pr.softSkillSignals ∩ req.softSkillSignals).card ≤
        max req.softSkillSignals.card 1 :=
      le_trans (Finset.card_le_card Finset.inter_subset_right) (le_max_left _ _)
    simp only [hemp, if_false]
    exact rndDiv_le _ _ _ hpos (by nlinarith)

/-- The weighted overall score never exceeds 100 when the categories do not. -/
theorem overallScore_le (t e ed s : ℕ) (ht : t ≤ 100) (he : e ≤ 100)
    (hed : ed ≤ 100) (hs : s ≤ 100) : overallScore t e ed s ≤ 100 := by
  unfold overallScore
  exact rndDiv_le _ _ _ (by omega) (by nlinarith)

/-- Claim C1: for every candidate profile and job requirement, each of the
five scores produced by the scorer (overallMatch, technicalSkills,
experience, education, softSkills) is an integer in the closed range
[0, 100].  The scores are natural numbers, so the lower bound 0 holds by
type; the theorem records the upper bound 100 for each. -/
theorem scores_in_range (pr : CandidateProfile) (req : JobRequirement) :
    (score pr req).overallMatch ≤ 100 ∧
    (score pr req).technicalSkills ≤ 100 ∧
    (score pr req).experience ≤ 100 ∧
    (score pr req).education ≤ 100 ∧
    (score pr req).softSkills ≤ 100 := by
  refine ⟨?_, techScore_le pr req, expScore_le pr req, eduScore_le pr req, softScore_le pr req⟩
  exact overallScore_le _ _ _ _ (techScore_le pr req) (expScore_le pr req)
    (eduScore_le pr req) (softScore_le pr req)

/-- Claim C2: the technical-skills score is the round-to-nearest of
`100 * |skills ∩ (required ∪ preferred)| / |required ∪ preferred|` (stated
as the floor of the rational value plus one half), and is exactly 100 when
the requirement skill set `required ∪ preferred` is empty. -/
theorem technicalSkills_formula (pr : CandidateProfile) (req : JobRequirement) :
    (score pr req).technicalSkills =
      if (req.requiredSkills ∪ req.preferredSkills) = ∅ then 100
      else
        ⌊(100 * ((pr.skills ∩ (req.requiredSkills ∪ req.preferredSkills)).card : ℚ)) /
            (((req.requiredSkills ∪ req.preferredSkills).card : ℚ)) + 1 / 2⌋₊ := by
  show techScore pr req = _
  unfold techScore
  by_cases hemp : req.requiredSkills ∪ req.preferredSkills = ∅
  · simp [hemp]
  · have hpos : 0 < (req.requiredSkills ∪ req.preferredSkills).card :=
      Finset.card_pos.mpr (Finset.nonempty_iff_ne_empty.mpr hemp)
    simp only [hemp, if_false]
    rw [rndDiv_eq_floor _ _ hpos]
    push_cast
    ring_nf

/-- Claim C3: the matched keywords are exactly the profile skills that occur
in `required ∪ preferred` and the missing keywords are exactly the required
skills the profile lacks; both lists are sorted.  Consequently
`missingKeywords ⊆ requiredSkills` (a preferred-only gap is never reported
missing) and `matchedKeywords ⊆ profile.skills`. -/
theorem keywords_spec (pr : CandidateProfile) (req : JobRequirement) :
    List.Sorted (· ≤ ·) (score pr req).matchedKeywords ∧
    List.Sorted (· ≤ ·) (score pr req).missingKeywords ∧
    (∀ k, k ∈ (score pr req).matchedKeywords ↔
      (k ∈ pr.skills ∧ k ∈ req.requiredSkills ∪ req.preferredSkills)) ∧
    (∀ k, k ∈ (score pr req).missingKeywords ↔
      (k ∈ req.requiredSkills ∧ k ∉ pr.skills)) := by
  refine ⟨Finset.sort_sorted _ _, Finset.sort_sorted _ _, ?_, ?_⟩
  · intro k
    show k ∈ (pr.skills ∩ (req.requiredSkills ∪ req.preferredSkills)).sort (· ≤ ·) ↔ _
    rw [Finset.mem_sort, Finset.mem_inter]
  · intro k
    show k ∈ (req.requiredSkills \ pr.skills).sort (· ≤ ·) ↔ _
    rw [Finset.mem_sort, Finset.mem_sdiff]

/-! ### Frontend file validation (C5)

Two upload handlers exist in the sources.  `validateAndSetFile` (the
FileUpload variant with an explicit `validTypes` array) accepts exactly the
three declared media types.  The handlers in
`frontend/src/components/FileUpload.tsx` instead test
`file.type === 'application/pdf' || file.type.includes('word')`. -/

/-- The `validTypes` array of `validateAndSetFile`. -/
def validTypes : List String :=
  ["application/pdf", "application/msword",
   "application/vnd.openxmlformats-officedocument.wordprocessingml.document"]

/-- Acceptance test of `validateAndSetFile`: membership in `validTypes`. -/
def validateAndSetFileAccepts (mediaType : String) : Bool :=
  validTypes.contains mediaType

/-- Acceptance test of `handleFileInput` / `handleDrop` in
`FileUpload.tsx`: `file.type === 'application/pdf' || file.type.includes('word')`. -/
def handleFileAccepts (mediaType : String) : Bool :=
  mediaType == "application/pdf" || decide (strIncludes mediaType "word")

/-- Claim C5 counterexample: the media type `application/x-word` is not one
of PDF, DOC, DOCX, yet `handleFileInput` in `FileUpload.tsx` accepts it
(its test only asks whether the type contains the substring "word"), so a
file outside the three declared types is not always rejected. -/
theorem handleFile_accepts_nonlisted_type :
    handleFileAccepts "application/x-word" = true ∧
    validateAndSetFileAccepts "application/x-word" = false := by
  constructor <;> decide

/-- Claim C5 (amended): `validateAndSetFile` accepts exactly the three
declared media types {PDF, DOC, DOCX}; the `FileUpload.tsx` handler accepts
exactly `application/pdf` plus every media type containing the substring
"word" — a superset of the three — and every type accepted by
`validateAndSetFile` is accepted by it; `image/png` is rejected by both. -/
theorem file_validation_spec (mediaType : String) :
    (validateAndSetFileAccepts mediaType = true ↔
      (mediaType = "application/pdf" ∨ mediaType = "application/msword" ∨
        mediaType =
          "application/vnd.openxmlformats-officedocument.wordprocessingml.document")) ∧
    (handleFileAccepts mediaType = true ↔
      (mediaType = "application/pdf" ∨ strIncludes mediaType "word")) ∧
    (validateAndSetFileAccepts mediaType = true → handleFileAccepts mediaType = true) ∧
    validateAndSetFileAccepts "image/png" = false ∧
    handleFileAccepts "image/png" = false := by
  refine ⟨?_, ?_, ?_, by decide, by decide⟩
  · simp [validateAndSetFileAccepts, validTypes]
  · simp [handleFileAccepts]
  · intro h
    have h3 : mediaType = "application/pdf" ∨ mediaType = "application/msword" ∨
        mediaType =
          "application/vnd.openxmlformats-officedocument.wordprocessingml.document" := by
      simpa [validateAndSetFileAccepts, validTypes] using h
    rcases h3 with rfl | rfl | rfl <;> decide

/-- Witness for the hypothesis of `file_validation_spec`: at
`application/msword` the `validateAndSetFile` acceptance holds, hence so
does the `FileUpload.tsx` acceptance. -/
theorem file_validation_spec_witness :
    validateAndSetFileAccepts "application/msword" = true ∧
    handleFileAccepts "application/msword" = true :=
  ⟨by decide, (file_validation_spec "application/msword").2.2.1 (by decide)⟩

/-! ### Response validation at the MatchResult boundary (C4)

`handleSubmit` in `part_005` validates the `/analyze` response before
accepting it: it filters the list `requiredFields` for names absent from
`response.data` and throws when any is missing.  The response body is
modelled as a record of optional fields, one per `MatchResult` field; a
field is "present" when its option holds a value. -/

/-- A JSON response body from `/analyze`: each `MatchResult` field may be
present or absent. -/
structure ServerResponse where
  overallMatch : Option Int
  technicalSkills : Option Int
  experience : Option Int
  education : Option Int
  softSkills : Option Int
  matchedKeywords : Option (List String)
  missingKeywords : Option (List String)
  improvements : Option (List String)
  skillsNeeded : Option (List String)
deriving DecidableEq

/-- The `requiredFields` array of `handleSubmit` in `part_005`, verbatim:
only the five score fields. -/
def requiredFields : List String :=
  ["overallMatch", "technicalSkills", "softSkills", "education", "experience"]

/-- Presence test `field in response.data` for each `MatchResult` field
name. -/
def hasField (r : ServerResponse) : String → Bool
  | "overallMatch" => r.overallMatch.isSome
  | "technicalSkills" => r.technicalSkills.isSome
  | "experience" => r.experience.isSome
  | "education" => r.education.isSome
  | "softSkills" => r.softSkills.isSome
  | "matchedKeywords" => r.matchedKeywords.isSome
  | "missingKeywords" => r.missingKeywords.isSome
  | "improvements" => r.improvements.isSome
  | "skillsNeeded" => r.skillsNeeded.isSome
  | _ => false

/-- The `missingFields` computation of `handleSubmit`:
`requiredFields.filter(field => !(field in response.data))`. -/
def missingFields (r : ServerResponse) : List String :=
  requiredFields.filter (fun f => !(hasField r f))

/-- The acceptance test of `handleSubmit`: the response is accepted when
`missingFields` is empty, otherwise an error is thrown. -/
def validateResponse (r : ServerResponse) : Bool :=
  (missingFields r).isEmpty

/-- A response carrying the five scores but none of the four
keyword/suggestion arrays. -/
def scoresOnlyResponse : ServerResponse :=
  { overallMatch := some 80, technicalSkills := some 70, experience := some 60,
    education := some 50, softSkills := some 40, matchedKeywords := none,
    missingKeywords := none, improvements := none, skillsNeeded := none }

/-- Claim C4 counterexample: the result-validation step accepts a response
in which all four keyword/suggestion arrays are absent, so a response is
not "rejected if any MatchResult field is missing": only the five score
fields are checked. -/
theorem validation_accepts_scores_only :
    validateResponse scoresOnlyResponse = true ∧
    hasField scoresOnlyResponse "matchedKeywords" = false ∧
    hasField scoresOnlyResponse "missingKeywords" = false ∧
    hasField scoresOnlyResponse "improvements" = false ∧
    hasField scoresOnlyResponse "skillsNeeded" = false := by
  decide

/-- Claim C4 (amended): the result-validation step in `handleSubmit` checks
presence of exactly the five score fields (overallMatch, technicalSkills,
softSkills, education, experience) and accepts the response if and only if
all five are present; the four keyword/suggestion arrays are not checked. -/
theorem validation_checks_scores (r : ServerResponse) :
    validateResponse r = true ↔
      (r.overallMatch.isSome = true ∧ r.technicalSkills.isSome = true ∧
        r.softSkills.isSome = true ∧ r.education.isSome = true ∧
        r.experience.isSome = true) := by
  rcases r with ⟨o, t, e, ed, s, mk, ms, im, sn⟩
  cases o <;> cases t <;> cases e <;> cases ed <;> cases s <;>
    simp [validateResponse, missingFields, requiredFields, hasField]

/-! ### The submit flow of `part_005` (C6, C7, C10)

`handleSubmit` first guards on `!file || !jobDescription.trim()`; only past
that guard does it POST to `/analyze` and handle the reply.  The component
state, the possible replies and the handler are embedded as a step
function: the reply parameter stands for what the `await axios.post`
settles to, and the clock parameter for `Date.now()` /
`new Date().toISOString()`. -/

/-- The selected upload file (only the name is consumed by the handler). -/
structure UploadFile where
  name : String
deriving DecidableEq

/-- A history entry as built by `handleSubmit`. -/
structure HistoryItem where
  id : String
  fileName : String
  uploadDate : String
  analysisResult : ServerResponse
deriving DecidableEq

/-- Component state of the `FileUpload` component in `part_005`. -/
structure UIState where
  jobDescription : String
  file : Option UploadFile
  error : Option String
  isAnalyzing : Bool
  analysisResult : Option ServerResponse
  resumeHistory : List HistoryItem
deriving DecidableEq

/-- What the `axios.post('/analyze', ...)` call settles to. -/
inductive ServerReply
  | success (data : ServerResponse)
  | notObject
  | serverError (detail : Option String)
  | networkError
deriving DecidableEq

/-- A reply is a failure when it is a server error, a connection failure,
a non-object body, or a body failing the required-field validation. -/
def ServerReply.isFailure : ServerReply → Bool
  | .success data => !validateResponse data
  | _ => true

/-- The wall clock as observed by `handleSubmit`. -/
structure Clock where
  nowMs : ℕ
  nowIso : String

/-- The history entry `handleSubmit` constructs on success. -/
def mkHistoryItem (clock : Clock) (f : UploadFile) (data : ServerResponse) : HistoryItem :=
  { id := toString clock.nowMs
    fileName := f.name
    uploadDate := clock.nowIso
    analysisResult := data }

/-- The try/catch body of `handleSubmit` after the request was sent: the
success path validates the required fields, stores the result, prepends a
history entry and clears the form; every failure path stores the error
message and leaves the analysis result cleared. -/
def processReply (clock : Clock) (f : UploadFile) (s : UIState) :
    ServerReply → UIState
  | .success data =>
    if validateResponse data then
      { s with analysisResult := some data
               resumeHistory := mkHistoryItem clock f data :: s.resumeHistory
               file := none
               jobDescription := ""
               isAnalyzing := false }
    else
      { s with error := some ("Invalid response: missing fields " ++
                 String.intercalate ", " (missingFields data))
               analysisResult := none
               isAnalyzing := false }
  | .notObject =>
    { s with error := some "Invalid response format from server"
             analysisResult := none
             isAnalyzing := false }
  | .serverError detail =>
    { s with error := some (detail.getD "An error occurred while analyzing the resume")
             analysisResult := none
             isAnalyzing := false }
  | .networkError =>
    { s with error := some "Could not connect to the server. Please try again."
             analysisResult := none
             isAnalyzing := false }

/-- `handleSubmit` of `part_005`: the guard, then (when a request is sent)
the pre-request state updates and the reply processing.  The boolean
records whether a request was sent at all. -/
def handleSubmit (clock : Clock) (s : UIState) (reply : ServerReply) :
    UIState × Bool :=
  match s.file with
  | none => ({ s with error := some "Please upload a file and provide a job description" }, false)
  | some f =>
    if jsTrim s.jobDescription = "" then
      ({ s with error := some "Please upload a file and provide a job description" }, false)
    else
      let s1 := { s with isAnalyzing := true, error := none, analysisResult := none }
      (processReply clock f s1 reply, true)

/-- Claim C6: a request is sent if and only if a file is selected and the
job description is not blank (empty or whitespace-only); with a blank job
description the submission fails up front — the only state change is the
validation error message, and no analysis request is made. -/
theorem empty_requirement_guard (clock : Clock) (s : UIState) (reply : ServerReply) :
    ((handleSubmit clock s reply).2 = false ↔
      (s.file = none ∨ jsTrim s.jobDescription = "")) ∧
    ((s.file = none ∨ jsTrim s.jobDescription = "") →
      (handleSubmit clock s reply).1 =
        { s with error := some "Please upload a file and provide a job description" }) := by
  unfold handleSubmit
  rcases hf : s.file with _ | f
  · simp
  · by_cases hjd : jsTrim s.jobDescription = "" <;> simp [hjd]

/-- Witness for `empty_requirement_guard`: with a whitespace-only job
description and a selected file, the submission is blocked and only the
error message changes. -/
theorem empty_requirement_guard_witness :
    ((some ⟨"resume.pdf"⟩ : Option UploadFile) = none ∨ jsTrim "   " = "") ∧
    (handleSubmit ⟨0, "t0"⟩
        { jobDescription := "   ", file := some ⟨"resume.pdf"⟩, error := none,
          isAnalyzing := false, analysisResult := none, resumeHistory := [] }
        .networkError).1 =
      { jobDescription := "   ", file := some ⟨"resume.pdf"⟩,
        error := some "Please upload a file and provide a job description",
        isAnalyzing := false, analysisResult := none, resumeHistory := [] } := by
  refine ⟨Or.inr (by decide), ?_⟩
  exact (empty_requirement_guard ⟨0, "t0"⟩ _ .networkError).2 (Or.inr (by decide))

/-- Claim C7: on every analysis failure — server error, connection failure,
non-object body, or a body with missing required fields — the handler
stores no partial result: the analysis result is null afterwards and the
resume history is exactly what it was before the call. -/
theorem failure_keeps_no_partial_result (clock : Clock) (f : UploadFile)
    (s : UIState) (reply : ServerReply) (hfail : reply.isFailure = true) :
    (processReply clock f s reply).analysisResult = none ∧
    (processReply clock f s reply).resumeHistory = s.resumeHistory := by
  cases reply with
  | success data =>
    have hv : validateResponse data = false := by
      simpa [ServerReply.isFailure] using hfail
    simp [processReply, hv]
  | notObject => simp [processReply]
  | serverError detail => simp [processReply]
  | networkError => simp [processReply]

/-- Witness for `failure_keeps_no_partial_result`: a connection failure
leaves the analysis result null and the history untouched. -/
theorem failure_keeps_no_partial_result_witness :
    (ServerReply.networkError).isFailure = true ∧
    (processReply ⟨0, "t0"⟩ ⟨"resume.pdf"⟩
        { jobDescription := "jd", file := some ⟨"resume.pdf"⟩, error := none,
          isAnalyzing := true, analysisResult := none,
          resumeHistory := [⟨"1", "old.pdf", "t-1", scoresOnlyResponse⟩] }
        .networkError).analysisResult = none ∧
    (processReply ⟨0, "t0"⟩ ⟨"resume.pdf"⟩
        { jobDescription := "jd", file := some ⟨"resume.pdf"⟩, error := none,
          isAnalyzing := true, analysisResult := none,
          resumeHistory := [⟨"1", "old.pdf", "t-1", scoresOnlyResponse⟩] }
        .networkError).resumeHistory = [⟨"1", "old.pdf", "t-1", scoresOnlyResponse⟩] := by
  refine ⟨by decide, ?_, ?_⟩
  · exact (failure_keeps_no_partial_result ⟨0, "t0"⟩ ⟨"resume.pdf"⟩ _ .networkError rfl).1
  · exact (failure_keeps_no_partial_result ⟨0, "t0"⟩ ⟨"resume.pdf"⟩ _ .networkError rfl).2

/-- Claim C10: a successful, validated analysis stores the result and
prepends exactly one new history entry — built from the clock, the file
name and the response — in front of the unchanged previous entries
(newest first). -/
theorem success_prepends_history (clock : Clock) (f : UploadFile)
    (s : UIState) (data : ServerResponse) (hvalid : validateResponse data = true) :
    (processReply clock f s (.success data)).resumeHistory =
      mkHistoryItem clock f data :: s.resumeHistory ∧
    (processReply clock f s (.success data)).analysisResult = some data := by
  simp [processReply, hvalid]

/-- A fully populated, valid response used by the witnesses. -/
def fullResponse : ServerResponse :=
  { overallMatch := some 76, technicalSkills := some 50, experience := some 100,
    education := some 100, softSkills := some 50, matchedKeywords := some ["python"],
    missingKeywords := some ["docker"],
    improvements := some ["Add demonstrated experience with docker"],
    skillsNeeded := some ["docker"] }

/-- Witness for `success_prepends_history`: a valid response at a concrete
state yields exactly the new entry in front of the old history. -/
theorem success_prepends_history_witness :
    validateResponse fullResponse = true ∧
    (processReply ⟨42, "t42"⟩ ⟨"resume.pdf"⟩
        { jobDescription := "jd", file := some ⟨"resume.pdf"⟩, error := none,
          isAnalyzing := true, analysisResult := none,
          resumeHistory := [⟨"1", "old.pdf", "t-1", scoresOnlyResponse⟩] }
        (.success fullResponse)).resumeHistory =
      mkHistoryItem ⟨42, "t42"⟩ ⟨"resume.pdf"⟩ fullResponse ::
        [⟨"1", "old.pdf", "t-1", scoresOnlyResponse⟩] := by
  refine ⟨by decide, ?_⟩
  exact (success_prepends_history ⟨42, "t42"⟩ ⟨"resume.pdf"⟩ _ fullResponse (by decide)).1

/-! ### History deletion (C9) -/

/-- `deleteHistoryItem` of `part_005` (identical in `FileUpload.tsx`):
`setResumeHistory(prev => prev.filter(item => item.id !== id))`. -/
def deleteHistoryItem (id : String) (hist : List HistoryItem) : List HistoryItem :=
  hist.filter (fun item => item.id != id)

/-- Claim C9: `deleteHistoryItem id` keeps exactly the entries whose id
differs from `id`, preserves the relative order of the kept entries (the
result is a sublist of the input), and is the identity when no entry
carries the given id. -/
theorem deleteHistoryItem_spec (id : String) (hist : List HistoryItem) :
    (∀ item, item ∈ deleteHistoryItem id hist ↔ (item ∈ hist ∧ item.id ≠ id)) ∧
    List.Sublist (deleteHistoryItem id hist) hist ∧
    ((∀ item ∈ hist, item.id ≠ id) → deleteHistoryItem id hist = hist) := by
  refine ⟨?_, List.filter_sublist hist, ?_⟩
  · intro item
    simp [deleteHistoryItem, List.mem_filter]
  · intro hnone
    refine List.filter_eq_self.mpr ?_
    intro item hmem
    simpa using hnone item hmem

/-- Witness for `deleteHistoryItem_spec`: deleting an id absent from a
concrete two-entry history leaves it unchanged. -/
theorem deleteHistoryItem_spec_witness :
    (∀ item ∈ [(⟨"1", "a.pdf", "t1", scoresOnlyResponse⟩ : HistoryItem),
        ⟨"2", "b.pdf", "t2", scoresOnlyResponse⟩], item.id ≠ "3") ∧
    deleteHistoryItem "3"
        [⟨"1", "a.pdf", "t1", scoresOnlyResponse⟩,
         ⟨"2", "b.pdf", "t2", scoresOnlyResponse⟩] =
      [⟨"1", "a.pdf", "t1", scoresOnlyResponse⟩,
       ⟨"2", "b.pdf", "t2", scoresOnlyResponse⟩] := by
  refine ⟨by decide, ?_⟩
  exact (deleteHistoryItem_spec "3" _).2.2 (by decide)

/-! ### The analysis pipeline (C8)

The FastAPI backend that implements the pipeline of spec section 2 is not
under the checked-in sources (only its build script is), so the pipeline
stages are modelled from the specification.  Binary document decoding is
external to the spec's algorithmic content; a raw document carries the
character payload its extractor yields. -/

/-- Modelled from the spec: a raw uploaded document (spec section 3) —
declared media type, original filename, and the textual payload that
binary extraction recovers (the PDF/DOC parser itself is an external
concern the spec does not algorithmically define). -/
structure RawDocument where
  mediaType : String
  fileName : String
  content : List Char

/-- Modelled from the spec: error kinds of spec section 7 raised by the
missing backend. -/
inductive PipelineError
  | unsupportedFormat
  | extractionFailure
  | emptyRequirement
deriving DecidableEq

/-- Modelled from the spec: the Document Extractor of section 4.1 —
rejects media types outside {PDF, DOC, DOCX} with `UnsupportedFormat` and
empty extracted text with `ExtractionFailure`. -/
def extract (doc : RawDocument) : Except PipelineError String :=
  if validTypes.contains doc.mediaType then
    let text := String.mk doc.content
    if jsTrim text = "" then .error .extractionFailure else .ok text
  else .error .unsupportedFormat

/-- Modelled from the spec: the fixed stop-word set of section 4.2. -/
def stopWords : List String :=
  ["a", "an", "the", "and", "or", "of", "with", "in", "to", "for", "on", "at",
   "is", "are", "be", "as", "by"]

/-- Modelled from the spec: the skill-term allowlist of section 4.2 that
protects skill abbreviations from stop-word filtering. -/
def skillAllowlist : List String := ["r", "go", "c"]

/-- Modelled from the spec: the Text Normalizer of section 4.2 —
lower-cases, collapses punctuation/whitespace runs into token boundaries
and removes stop-words unless the token is on the skill allowlist
(lemmatization is folded into the synonym canonicalization of skill
detection). -/
def normalize (s : String) : List String :=
  (((s.data.map Char.toLower).splitOnP (fun c => !c.isAlphanum)).map String.mk).filter
    (fun t => t ≠ "" && (skillAllowlist.contains t || !stopWords.contains t))

/-- Modelled from the spec: the canonical synonym map of section 4.3
(e.g. "js" → "javascript"). -/
def skillSynonyms : List (String × String) :=
  [("js", "javascript"), ("py", "python"), ("k8s", "kubernetes"), ("ml", "machine learning")]

/-- Modelled from the spec: the canonical skill dictionary of section 4.3
(process-wide, read-only). -/
def skillDictionary : List String :=
  ["javascript", "python", "docker", "aws", "kubernetes", "react", "sql",
   "java", "go", "r", "c", "machine learning"]

/-- Modelled from the spec: canonical form of a token span — resolve a
synonym, then look the result up in the skill dictionary. -/
def canonicalSkill (t : String) : Option String :=
  match skillSynonyms.lookup t with
  | some canonical => if skillDictionary.contains canonical then some canonical else none
  | none => if skillDictionary.contains t then some t else none

/-- Modelled from the spec: the 1-3-gram spans of section 4.3 scanned
against the dictionary (n-grams joined by single spaces). -/
def ngrams (toks : List String) : List String :=
  toks ++ (toks.zipWith (fun a b => a ++ " " ++ b) toks.tail) ++
    (toks.zipWith (fun a b => a ++ " " ++ b) (toks.zipWith (fun a b => a ++ " " ++ b) toks.tail).tail)

/-- Modelled from the spec: skill detection of section 4.3 — every
dictionary hit among the token n-grams contributes its canonical form. -/
def detectSkills (toks : List String) : Finset String :=
  ((ngrams toks).filterMap canonicalSkill).toFinset

/-- Digits of a token read as a natural number. -/
def digitsToNat (cs : List Char) : ℕ :=
  cs.foldl (fun n c => 10 * n + (c.toNat - 48)) 0

/-- Modelled from the spec: the `<number> (+)? years` pattern scan of
section 4.3 over the normalized tokens (the "+" is consumed by
normalization, leaving a number token directly before a "years" token). -/
def yearsScan : List String → List ℕ
  | t :: u :: rest =>
    if (u == "years" || u == "year") && t != "" && t.data.all Char.isDigit then
      digitsToNat t.data :: yearsScan (u :: rest)
    else yearsScan (u :: rest)
  | _ => []

/-- Modelled from the spec: experience-years detection of section 4.3 —
the maximum over all pattern matches, `unknown` when there is none. -/
def experienceYearsOf (toks : List String) : Option ℕ :=
  (yearsScan toks).max?

/-- Modelled from the spec: degree keywords of section 4.3 mapped to the
education enum. -/
def eduKeyword : String → Option EducationLevel
  | "high school" => some .HIGH_SCHOOL
  | "associate" => some .ASSOCIATE
  | "bachelor" => some .BACHELOR
  | "bachelors" => some .BACHELOR
  | "master" => some .MASTER
  | "masters" => some .MASTER
  | "phd" => some .DOCTORATE
  | "doctorate" => some .DOCTORATE
  | _ => none

/-- The higher-ranked of two education levels (`UNKNOWN` loses to any
ranked level). -/
def eduMax (a b : EducationLevel) : EducationLevel :=
  match eduRank a, eduRank b with
  | none, _ => b
  | _, none => a
  | some ra, some rb => if ra ≤ rb then b else a

/-- Modelled from the spec: education-level detection of section 4.3 —
highest-ranked degree keyword found among the token n-grams, `UNKNOWN`
when none occurs. -/
def educationOf (toks : List String) : EducationLevel :=
  ((ngrams toks).filterMap eduKeyword).foldl eduMax .UNKNOWN

/-- Modelled from the spec: the soft-skill signal dictionary backing the
heuristic pass of section 4.3. -/
def softSkillDict : List String :=
  ["communication", "leadership", "teamwork", "collaboration", "mentoring"]

/-- Modelled from the spec: soft-skill signals among the tokens. -/
def softOf (toks : List String) : Finset String :=
  (toks.filter (fun t => softSkillDict.contains t)).toFinset

/-- Modelled from the spec: the Profile Extractor of section 4.3 — never
fails; an empty resume yields an empty-but-valid profile. -/
def extractProfile (text : String) : CandidateProfile :=
  let toks := normalize text
  { skills := detectSkills toks
    experienceYears := experienceYearsOf toks
    educationLevel := educationOf toks
    softSkillSignals := softOf toks }

/-- Modelled from the spec: the required/preferred cue phrases of
section 4.3. -/
def requiredCues : List String := ["required", "must"]

/-- Modelled from the spec: the preferred cue phrases of section 4.3. -/
def preferredCues : List String := ["preferred", "nice", "bonus"]

/-- Modelled from the spec: the cue-proximity split of section 4.3 — a
token belongs to the preferred segment when the nearest preceding cue is a
preferred cue, and to the required segment otherwise (no cue defaults to
required). -/
def splitByCue : List String → Bool → List String × List String
  | [], _ => ([], [])
  | t :: rest, inPreferred =>
    if requiredCues.contains t then splitByCue rest false
    else if preferredCues.contains t then splitByCue rest true
    else
      let (r, p) := splitByCue rest inPreferred
      if inPreferred then (r, t :: p) else (t :: r, p)

/-- Modelled from the spec: the Requirement Extractor of section 4.3 —
fails with `EmptyRequirement` on a blank job description, otherwise
extracts required/preferred skills by cue split plus the experience,
education and soft-skill signals. -/
def extractRequirement (jd : String) : Except PipelineError JobRequirement :=
  if jsTrim jd = "" then .error .emptyRequirement
  else
    let toks := normalize jd
    let (reqToks, prefToks) := splitByCue toks false
    .ok { requiredSkills := detectSkills reqToks
          preferredSkills := detectSkills prefToks
          minExperienceYears := experienceYearsOf toks
          minEducationLevel := educationOf toks
          softSkillSignals := softOf toks }

/-- The externally-visible result contract of spec section 3. -/
structure MatchResult where
  overallMatch : ℕ
  technicalSkills : ℕ
  experience : ℕ
  education : ℕ
  softSkills : ℕ
  matchedKeywords : List String
  missingKeywords : List String
  improvements : List String
  skillsNeeded : List String
deriving DecidableEq

/-- Outcome of the external text-generation call used by the Feedback
Generator: `none` stands for timeout/failure (no variance source beyond
this argument exists in the pipeline). -/
def ExtService : Type :=
  List String → Option (List String)

/-- Modelled from the spec: the Feedback Generator of section 4.5 — one
templated line per missing required skill plus one line per category gap
below 60, optionally replaced by the external enrichment, falling back to
the templated text when that call fails; `skillsNeeded` mirrors the
missing keywords. -/
def feedback (sb : ScoreBreakdown) (ext : ExtService) : List String × List String :=
  let templated := sb.missingKeywords.map (fun k => "Add demonstrated experience with " ++ k)
      ++ (if sb.experience < 60 then ["Highlight more years of relevant experience"] else [])
      ++ (if sb.education < 60 then ["Add or clarify your education credentials"] else [])
  let improvements := match ext templated with
    | some enriched => enriched
    | none => templated
  (improvements, sb.missingKeywords)

/-- Modelled from the spec: the Result Assembler of section 4.6 — merges
the score breakdown and the feedback into the `MatchResult` contract. -/
def assemble (sb : ScoreBreakdown) (improvements skillsNeeded : List String) : MatchResult :=
  { overallMatch := sb.overallMatch
    technicalSkills := sb.technicalSkills
    experience := sb.experience
    education := sb.education
    softSkills := sb.softSkills
    matchedKeywords := sb.matchedKeywords
    missingKeywords := sb.missingKeywords
    improvements := improvements
    skillsNeeded := skillsNeeded }

/-- Modelled from the spec: the whole analysis pipeline of section 2 —
extract, normalize and profile the resume, extract the requirement,
score, generate feedback, assemble.  The external text-generation outcome
is the only non-input dependency and is passed explicitly. -/
def analyze (doc : RawDocument) (jd : String) (ext : ExtService) :
    Except PipelineError MatchResult :=
  match extract doc with
  | .error e => .error e
  | .ok text =>
    match extractRequirement jd with
    | .error e => .error e
    | .ok req =>
      let pr := extractProfile text
      let sb := score pr req
      let (improvements, skillsNeeded) := feedback sb ext
      .ok (assemble sb improvements skillsNeeded)

/-- Claim C8: the pipeline is deterministic — for identical resume bytes
and identical job-description text, and identical external-service
outcomes (no external variance), two runs produce identical results in
every field. -/
theorem analyze_deterministic (doc : RawDocument) (jd : String)
    (ext1 ext2 : ExtService) (hnovariance : ext1 = ext2) :
    analyze doc jd ext1 = analyze doc jd ext2 := by
  rw [hnovariance]

/-- Witness for `analyze_deterministic`: a concrete document, job
description and external outcome run twice agree. -/
theorem analyze_deterministic_witness :
    ((fun _ => none : ExtService) = (fun _ => none : ExtService)) ∧
    analyze ⟨"application/pdf", "resume.pdf", "5 years of python".data⟩
        "required python and docker" (fun _ => none) =
      analyze ⟨"application/pdf", "resume.pdf", "5 years of python".data⟩
        "required python and docker" (fun _ => none) :=
  ⟨rfl, analyze_deterministic ⟨"application/pdf", "resume.pdf", "5 years of python".data⟩
    "required python and docker" (fun _ => none) (fun _ => none) rfl⟩

end ResumeReviewer
